import Mathlib

/-!
Verification of the canvas-leaderboard rendering library against its design
document. The definitions below are a shallow embedding of
src/LeaderboardBuilder.ts and src/types.ts: JavaScript numbers are modelled as
exact rationals (`Rat`), the mutable 2D drawing context as an explicit state
record, and the fallible parts of a render (color-stop registration, avatar
fetching) as `Except` values and oracle functions.
-/

namespace CanvasLeaderboard

/-- `RankTier` from src/types.ts: a named XP threshold bracket. -/
structure RankTier where
  name : String
  color : String
  minXp : Rat
deriving DecidableEq

/-- `LeaderboardData` from src/types.ts: one participant row. -/
structure LeaderboardData where
  nickname : String
  avatarUrl : String
  level : Int
  xp : Rat
  neededXp : Rat
deriving DecidableEq

/-- `HeaderOptions` from src/types.ts. -/
structure HeaderOptions where
  title : String
  subtitle : Option String
deriving DecidableEq

/-- `PodiumColors` from src/types.ts. -/
structure PodiumColors where
  first : Option String
  second : Option String
  third : Option String
deriving DecidableEq

/-- `PodiumOptions` from src/types.ts. -/
structure PodiumOptions where
  colors : Option PodiumColors
deriving DecidableEq

/-- `XpBarColors` from src/types.ts. -/
structure XpBarColors where
  primary : String
  secondary : String
deriving DecidableEq

/-- `AuroraSpot` from src/types.ts. -/
structure AuroraSpot where
  color : String
  x : Rat
  y : Rat
  radius : Rat
deriving DecidableEq

/-- `GradientOptions` from src/types.ts. The TypeScript type restricts `type`
to seven literal strings, but the paint site (lines 235-244) switches on the
string with a default branch, so it is modelled as an arbitrary string. -/
structure GradientOptions where
  type : String
  colors : List String
deriving DecidableEq

/-- `AuroraBackgroundOptions` from src/types.ts. -/
structure AuroraBackgroundOptions where
  baseColor : String
  spots : List AuroraSpot
deriving DecidableEq

/-- `BackgroundOptions` from src/types.ts: `string | GradientOptions |
AuroraBackgroundOptions`, as the tagged union the paint site distinguishes. -/
inductive BackgroundOptions where
  | solid (color : String)
  | gradient (g : GradientOptions)
  | aurora (a : AuroraBackgroundOptions)
deriving DecidableEq

/-- The private fields of `LeaderboardBuilder` (lines 25-33) that `build`
reads. Font styles only select CSS font strings and are omitted; `limit` is
`number | null` in the source, modelled as `Option Int`. -/
structure BuilderState where
  users : List LeaderboardData
  limit : Option Int
  background : BackgroundOptions
  header : HeaderOptions
  podium : PodiumOptions
  rankVisible : Bool
  rankTiers : List RankTier
  xpBarColors : XpBarColors
deriving DecidableEq

/-- `getRankForXp` (lines 187-190): empty tier list gives `null`; otherwise
`find` scans the stored order and `|| null` turns `undefined` into `null`,
modelled by `List.find?`. -/
def getRankForXp (rankTiers : List RankTier) (xp : Rat) : Option RankTier :=
  if rankTiers.length = 0 then none
  else rankTiers.find? (fun tier => decide (xp ≥ tier.minXp))

/-- JavaScript truthiness of an optional string: `undefined` and the empty
string are falsy, every other string is truthy. -/
def jsTruthyStr : Option String → Bool
  | none => false
  | some s => s ≠ ""

/-- Line 204: `this.header.subtitle ? 150 : 120`. -/
def headerHeight (header : HeaderOptions) : Rat :=
  if jsTruthyStr header.subtitle then 150 else 120

/-- Line 203: the canvas width is the constant 900. -/
def canvasWidth : Rat := 900

/-- Line 205: `headerHeight + usersToRender.length * 100 + 20`. -/
def canvasHeight (header : HeaderOptions) (rowCount : Nat) : Rat :=
  headerHeight header + (rowCount : Rat) * 100 + 20

/-- JavaScript `array.slice(0, e)` for an integer second argument: a negative
`e` counts from the end of the array, so the result is the first
`max(length + e, 0)` elements. -/
def jsSliceToEnd {α : Type} (l : List α) (e : Int) : List α :=
  if 0 ≤ e then l.take e.toNat else l.take (l.length - (-e).toNat)

/-- Line 202: `this.limit ? this.users.slice(0, this.limit) : this.users`.
A `null` or `0` limit is falsy and keeps the full list; any other integer is
truthy and is passed to `slice`. -/
def usersToRender (users : List LeaderboardData) (limit : Option Int) :
    List LeaderboardData :=
  match limit with
  | none => users
  | some k => if k = 0 then users else jsSliceToEnd users k

/-- The geometry handed to `createLinearGradient` / `createRadialGradient`. -/
inductive GradientGeom where
  | linear (x0 y0 x1 y1 : Rat)
  | radial (x0 y0 r0 x1 y1 r1 : Rat)
deriving DecidableEq

/-- The `switch (gradientOptions.type)` at lines 235-244, including the
`default` branch falling back to the (0,0)→(width,height) diagonal. -/
def gradientGeomFor (kind : String) (width height : Rat) : GradientGeom :=
  if kind = "linear-left-right" then GradientGeom.linear 0 0 width 0
  else if kind = "linear-right-left" then GradientGeom.linear width 0 0 0
  else if kind = "linear-top-bottom" then GradientGeom.linear 0 0 0 height
  else if kind = "linear-bottom-top" then GradientGeom.linear 0 height 0 0
  else if kind = "linear-top-left-bottom-right" then GradientGeom.linear 0 0 width height
  else if kind = "linear-top-right-bottom-left" then GradientGeom.linear width 0 0 height
  else if kind = "radial" then
    GradientGeom.radial (width / 2) (height / 2) 0 (width / 2) (height / 2)
      (max width height / 2)
  else GradientGeom.linear 0 0 width height

/-- The color-stop offset `index / (colors.length - 1)` of line 246 as
JavaScript computes it: `none` stands for a non-finite result (`0/0` is `NaN`,
`k/0` is `±Infinity`); division never throws in JavaScript. -/
def jsStopOffset (index count : Nat) : Option Rat :=
  if count = 1 then none
  else some ((index : Rat) / ((count : Rat) - 1))

/-- `CanvasGradient.addColorStop` as the HTML canvas standard specifies the
drawing-surface collaborator: an offset that is non-finite or outside `[0,1]`
raises an `IndexSizeError`; otherwise the stop is appended. -/
def addColorStop (offset : Option Rat) (color : String)
    (stops : List (Rat × String)) : Except String (List (Rat × String)) :=
  match offset with
  | none => Except.error "IndexSizeError: non-finite color stop offset"
  | some q =>
    if 0 ≤ q ∧ q ≤ 1 then Except.ok (stops ++ [(q, color)])
    else Except.error "IndexSizeError: color stop offset out of range"

/-- The `forEach` at lines 245-247: one `addColorStop(index / (count-1), c)`
per color, in order; the first rejected stop aborts the paint. -/
def addGradientStops (colors : List String) : Except String (List (Rat × String)) :=
  colors.enum.foldlM
    (fun acc p => addColorStop (jsStopOffset p.1 colors.length) p.2 acc) []

/-- A fill style: a CSS color string or a gradient with its geometry and
registered color stops. -/
inductive FillStyle where
  | color (c : String)
  | gradientFill (geom : GradientGeom) (stops : List (Rat × String))
deriving DecidableEq

/-- One recorded `fillRect`, tagged with the `globalAlpha` in force when it was
issued. -/
structure PaintOp where
  style : FillStyle
  x : Rat
  y : Rat
  w : Rat
  h : Rat
  alpha : Rat
deriving DecidableEq

/-- The slice of 2D-context state the background painting reads and writes:
the current `globalAlpha` and the log of issued fill operations. -/
structure Ctx where
  globalAlpha : Rat
  ops : List PaintOp
deriving DecidableEq

/-- `ctx.fillStyle = style; ctx.fillRect(x, y, w, h)` at the current alpha. -/
def Ctx.fillRect (ctx : Ctx) (style : FillStyle) (x y w h : Rat) : Ctx :=
  { ctx with ops := ctx.ops ++ [⟨style, x, y, w, h, ctx.globalAlpha⟩] }

/-- `ctx.globalAlpha = a`. -/
def Ctx.setGlobalAlpha (ctx : Ctx) (a : Rat) : Ctx :=
  { ctx with globalAlpha := a }

/-- A fresh 2D context: `globalAlpha` defaults to fully opaque. -/
def initialCtx : Ctx := { globalAlpha := 1, ops := [] }

/-- The radial gradient built for one aurora spot (lines 222-225): the spot
color at offset 0 fading to the same color with `00` alpha appended at 1. -/
def spotStyle (spot : AuroraSpot) : FillStyle :=
  FillStyle.gradientFill (GradientGeom.radial spot.x spot.y 0 spot.x spot.y spot.radius)
    [(0, spot.color), (1, spot.color ++ "00")]

/-- The background dispatch of lines 210-250. A solid string fills once; an
aurora background fills the base color, lowers `globalAlpha` to 0.4 (= 2/5),
fills one full-rectangle radial gradient per spot in sequence order, then
resets `globalAlpha` to 1; a gradient background registers the color stops
(which can raise, see `addColorStop`) and fills once with the switched
geometry. -/
def paintBackground (bg : BackgroundOptions) (width height : Rat) (ctx : Ctx) :
    Except String Ctx :=
  match bg with
  | BackgroundOptions.solid c =>
    Except.ok (ctx.fillRect (FillStyle.color c) 0 0 width height)
  | BackgroundOptions.aurora a =>
    Except.ok
      (((a.spots.foldl (fun c spot => c.fillRect (spotStyle spot) 0 0 width height)
        ((ctx.fillRect (FillStyle.color a.baseColor) 0 0 width height).setGlobalAlpha
          (2 / 5))).setGlobalAlpha 1))
  | BackgroundOptions.gradient g =>
    match addGradientStops g.colors with
    | Except.error e => Except.error e
    | Except.ok stops =>
      Except.ok (ctx.fillRect
        (FillStyle.gradientFill (gradientGeomFor g.type width height) stops) 0 0 width height)

/-- The podium accent of lines 279-282: the short-circuit chain
`(position === 1 && colors?.first) || ...` yields a color only when the
position is 1, 2 or 3 and the matching configured color is a truthy string. -/
def podiumColorFor (podium : PodiumOptions) (position : Nat) : Option String :=
  match podium.colors with
  | none => none
  | some cs =>
    if position = 1 then (if jsTruthyStr cs.first then cs.first else none)
    else if position = 2 then (if jsTruthyStr cs.second then cs.second else none)
    else if position = 3 then (if jsTruthyStr cs.third then cs.third else none)
    else none

/-- What one iteration of the row loop (lines 265-342) draws for one
participant. The avatar `try`/`catch` (lines 296-304) becomes the `avatarDrawn`
flag: a failed fetch logs and leaves the row without an avatar image. -/
structure RowRender where
  positionText : String
  podiumAccent : Option String
  avatarDrawn : Bool
  avatarErrorLogged : Bool
  nicknameText : String
  levelText : String
  barWidth : Rat
  barFillWidth : Option Rat
  xpText : String
  rankLabel : Option RankTier
deriving DecidableEq

/-- One row, from the loop body at lines 265-342. `avatarOk` is the outcome of
the `loadImage` collaborator for this row's URL. -/
def renderRow (st : BuilderState) (i : Nat) (player : LeaderboardData)
    (avatarOk : Bool) : RowRender :=
  let position := i + 1
  let barWidth : Rat := if st.rankVisible then 200 else 350
  let progress : Rat := if player.neededXp > 0 then player.xp / player.neededXp else 0
  { positionText := toString position
    podiumAccent := podiumColorFor st.podium position
    avatarDrawn := avatarOk
    avatarErrorLogged := !avatarOk
    nicknameText := player.nickname
    levelText := "Level " ++ toString player.level
    barWidth := barWidth
    barFillWidth := if progress > 0 then some (barWidth * min progress 1) else none
    xpText := toString player.xp ++ " / " ++ toString player.neededXp
    rankLabel := if st.rankVisible then getRankForXp st.rankTiers player.xp else none }

/-- The row loop: rows are rendered strictly in sequence order, each awaiting
its own avatar fetch before the next row starts. -/
def renderRows (st : BuilderState) (fetch : String → Bool) :
    Nat → List LeaderboardData → List RowRender
  | _, [] => []
  | i, p :: rest =>
    renderRow st i p (fetch p.avatarUrl) :: renderRows st fetch (i + 1) rest

/-- Everything `build` produced that the claims observe: the canvas
dimensions, the background fill log, the `globalAlpha` in force for the header
and row drawing that follows the background, and the rows. -/
structure RenderResult where
  width : Rat
  height : Rat
  background : List PaintOp
  drawAlpha : Rat
  rows : List RowRender
deriving DecidableEq

/-- `build` (lines 201-345): truncate per the limit, derive the canvas
dimensions, paint the background (whose color-stop registration is the one
throw site not caught inside `build`), then draw header and rows. `fetch`
says whether `loadImage` succeeds for a given URL. -/
def buildModel (st : BuilderState) (fetch : String → Bool) :
    Except String RenderResult :=
  match paintBackground st.background canvasWidth
    (canvasHeight st.header (usersToRender st.users st.limit).length) initialCtx with
  | Except.error e => Except.error e
  | Except.ok ctx =>
    Except.ok
      { width := canvasWidth
        height := canvasHeight st.header (usersToRender st.users st.limit).length
        background := ctx.ops
        drawAlpha := ctx.globalAlpha
        rows := renderRows st fetch 0 (usersToRender st.users st.limit) }

/-- JS `Array.prototype.sort` with the comparator `(a, b) => b.minXp - a.minXp`
(line 116): the array is reordered into descending `minXp` order, in place; the
resulting ordering is modelled with `List.insertionSort` under the "at least as
large threshold" relation. -/
def sortTiersDesc (l : List RankTier) : List RankTier :=
  l.insertionSort (fun a b => b.minXp ≤ a.minXp)

/-- The builder field holding a reference to the stored tier array. -/
structure BuilderRefs where
  rankTiersRef : Nat
deriving DecidableEq

/-- `setRankTiers` (lines 115-118) over an explicit array heap (a reference is
an index, `heapAt ref` the referenced array): `tiers.sort(...)` mutates the
caller's array in place and returns the same reference, which
`this.rankTiers =` then stores. The result is the updated heap and the updated
builder field. -/
def setRankTiersRef (heapAt : Nat → List RankTier) (argRef : Nat) :
    (Nat → List RankTier) × BuilderRefs :=
  (fun j => if j = argRef then sortTiersDesc (heapAt argRef) else heapAt j,
    { rankTiersRef := argRef })

/-- A concrete participant used by the limit counterexample. -/
def cexUserA : LeaderboardData :=
  { nickname := "a", avatarUrl := "urlA", level := 1, xp := 0, neededXp := 100 }

/-- A second concrete participant used by the limit counterexample. -/
def cexUserB : LeaderboardData :=
  { nickname := "b", avatarUrl := "urlB", level := 2, xp := 50, neededXp := 100 }

/-- The seven gradient kinds recognized by the switch at lines 235-244. -/
def recognizedGradientKinds : List String :=
  ["linear-left-right", "linear-right-left", "linear-top-bottom", "linear-bottom-top",
    "linear-top-left-bottom-right", "linear-top-right-bottom-left", "radial"]

/-! ## Theorems -/

/-- `getRankForXp` is `find?` on the tier list even in the empty case. -/
theorem getRankForXp_eq_find (tiers : List RankTier) (xp : Rat) :
    getRankForXp tiers xp = tiers.find? (fun tier => decide (xp ≥ tier.minXp)) := by
  cases tiers with
  | nil => simp [getRankForXp]
  | cons t ts => simp [getRankForXp]

/-- A successful `find?` splits the list at the first element satisfying the
predicate. -/
theorem find?_eq_some_split {α : Type} (p : α → Bool) (l : List α) (t : α)
    (h : l.find? p = some t) :
    p t = true ∧ ∃ l1 l2, l = l1 ++ t :: l2 ∧ ∀ u ∈ l1, p u = false := by
  induction l with
  | nil => simp at h
  | cons a as ih =>
    by_cases hpa : p a = true
    · rw [List.find?_cons_of_pos _ hpa] at h
      cases h
      exact ⟨hpa, [], as, rfl, by simp⟩
    · rw [List.find?_cons_of_neg _ (by simpa using hpa)] at h
      obtain ⟨hpt, l1, l2, hsplit, hl1⟩ := ih h
      refine ⟨hpt, a :: l1, l2, by rw [hsplit]; rfl, ?_⟩
      intro u hu
      rcases List.mem_cons.mp hu with h1 | h2
      · subst h1; simpa using hpa
      · exact hl1 u h2

/-- C1: rank resolution returns `none` exactly when no tier threshold is at or
below the XP (in particular for an empty tier set); a returned tier is the
first one in the stored (descending) order whose `minXp` is at most the XP,
every earlier tier having a strictly larger threshold; and whenever some tier
qualifies, a tier is returned. Totality of `getRankForXp` gives "never
throws". -/
theorem c1_getRankForXp_first_qualifying (tiers : List RankTier) (xp : Rat) :
    (getRankForXp tiers xp = none ↔ ∀ t ∈ tiers, xp < t.minXp) ∧
    (∀ t, getRankForXp tiers xp = some t →
      t.minXp ≤ xp ∧ ∃ l1 l2, tiers = l1 ++ t :: l2 ∧ ∀ u ∈ l1, xp < u.minXp) ∧
    ((∃ t ∈ tiers, t.minXp ≤ xp) → ∃ t, getRankForXp tiers xp = some t) := by
  rw [getRankForXp_eq_find]
  refine ⟨?_, ?_, ?_⟩
  · rw [List.find?_eq_none]
    constructor
    · intro h t ht
      have := h t ht
      simp only [decide_eq_true_eq] at this
      exact lt_of_not_ge this
    · intro h t ht
      simp only [decide_eq_true_eq]
      exact not_le_of_lt (h t ht)
  · intro t ht
    obtain ⟨hpt, l1, l2, hsplit, hl1⟩ := find?_eq_some_split _ tiers t ht
    simp only [decide_eq_true_eq] at hpt
    refine ⟨hpt, l1, l2, hsplit, ?_⟩
    intro u hu
    have := hl1 u hu
    simp only [decide_eq_false_iff_not] at this
    exact lt_of_not_ge this
  · rintro ⟨t, ht, hle⟩
    cases hfind : tiers.find? (fun tier => decide (xp ≥ tier.minXp)) with
    | some u => exact ⟨u, rfl⟩
    | none =>
      rw [List.find?_eq_none] at hfind
      exact absurd hle (by simpa using hfind t ht)

/-- The row loop renders one row per participant. -/
theorem renderRows_length (st : BuilderState) (fetch : String → Bool)
    (i : Nat) (l : List LeaderboardData) :
    (renderRows st fetch i l).length = l.length := by
  induction l generalizing i with
  | nil => rfl
  | cons p rest ih => simp [renderRows, ih]

/-- The `j`-th rendered row is the `j`-th participant rendered at index
`i + j`. -/
theorem renderRows_get (st : BuilderState) (fetch : String → Bool)
    (i : Nat) (l : List LeaderboardData) (j : Nat)
    (hj : j < (renderRows st fetch i l).length) (hj2 : j < l.length) :
    (renderRows st fetch i l).get ⟨j, hj⟩ =
      renderRow st (i + j) (l.get ⟨j, hj2⟩) (fetch (l.get ⟨j, hj2⟩).avatarUrl) := by
  induction l generalizing i j with
  | nil => exact absurd hj2 (Nat.not_lt_zero j)
  | cons p rest ih =>
    cases j with
    | zero => simp [renderRows]
    | succ j =>
      have h1 : j < (renderRows st fetch (i + 1) rest).length := by
        rw [renderRows_length]
        exact Nat.lt_of_succ_lt_succ hj2
      have h2 : j < rest.length := Nat.lt_of_succ_lt_succ hj2
      have harith : i + 1 + j = i + (j + 1) := by omega
      simp only [renderRows, List.get]
      rw [ih (i + 1) j h1 h2, harith]

/-- C2: a successful `build` yields a canvas of width exactly 900 and total
height `headerHeight + rowCount * 100 + 20` for the number of rendered rows,
where the header height is 150 exactly when a subtitle string is present and
non-empty and 120 otherwise. -/
theorem c2_canvas_dimensions (st : BuilderState) (fetch : String → Bool) :
    (∀ r, buildModel st fetch = Except.ok r →
      r.width = 900 ∧
      r.height = headerHeight st.header + (r.rows.length : Rat) * 100 + 20) ∧
    ((∃ s, st.header.subtitle = some s ∧ s ≠ "") ↔ headerHeight st.header = 150) ∧
    ((¬ ∃ s, st.header.subtitle = some s ∧ s ≠ "") ↔ headerHeight st.header = 120) := by
  have h150 : (∃ s, st.header.subtitle = some s ∧ s ≠ "") ↔
      headerHeight st.header = 150 := by
    unfold headerHeight jsTruthyStr
    cases hsub : st.header.subtitle with
    | none => simp
    | some s =>
      by_cases hs : s = ""
      · subst hs; simp
      · simp [hs]
  refine ⟨?_, h150, ?_⟩
  · intro r hr
    unfold buildModel at hr
    cases hpb : paintBackground st.background canvasWidth
        (canvasHeight st.header (usersToRender st.users st.limit).length) initialCtx with
    | error e => rw [hpb] at hr; cases hr
    | ok ctx =>
      rw [hpb] at hr
      injection hr with hr
      subst hr
      refine ⟨rfl, ?_⟩
      show canvasHeight st.header (usersToRender st.users st.limit).length = _
      rw [canvasHeight, renderRows_length]
  · rw [h150]
    unfold headerHeight
    by_cases h : jsTruthyStr st.header.subtitle = true
    · simp [h]
    · simp [h]

/-- C3 (amended): the limit keeps the first `limit` participants when it is
positive and the full sequence when it is unset or zero, but a negative limit
is truthy in JavaScript and `slice(0, limit)` then drops the last `|limit|`
participants; in every case the rendered sequence is an order-preserving
prefix of the original (no re-sorting), and a successful `build` renders
exactly one row per kept participant. -/
theorem c3_limit_truncation (users : List LeaderboardData) (limit : Option Int)
    (st : BuilderState) (fetch : String → Bool) :
    (limit = none → usersToRender users limit = users) ∧
    (limit = some 0 → usersToRender users limit = users) ∧
    (∀ k : Int, limit = some k → 0 < k →
      usersToRender users limit = users.take k.toNat) ∧
    (∀ k : Int, limit = some k → k < 0 →
      usersToRender users limit = users.take (users.length - (-k).toNat)) ∧
    (∃ n : Nat, usersToRender users limit = users.take n) ∧
    (∀ r, buildModel st fetch = Except.ok r →
      r.rows.length = (usersToRender st.users st.limit).length) := by
  refine ⟨?_, ?_, ?_, ?_, ?_, ?_⟩
  · intro h; rw [h]; rfl
  · intro h; rw [h]; simp [usersToRender]
  · intro k hk hpos
    rw [hk]
    have hk0 : k ≠ 0 := by omega
    simp [usersToRender, jsSliceToEnd, hk0, le_of_lt hpos]
  · intro k hk hneg
    rw [hk]
    have hk0 : k ≠ 0 := by omega
    have : ¬ 0 ≤ k := by omega
    simp [usersToRender, jsSliceToEnd, hk0, this]
  · cases limit with
    | none => exact ⟨users.length, by simp [usersToRender]⟩
    | some k =>
      by_cases hk0 : k = 0
      · subst hk0; exact ⟨users.length, by simp [usersToRender]⟩
      · by_cases hpos : 0 ≤ k
        · exact ⟨k.toNat, by simp [usersToRender, jsSliceToEnd, hk0, hpos]⟩
        · exact ⟨users.length - (-k).toNat,
            by simp [usersToRender, jsSliceToEnd, hk0, hpos]⟩
  · intro r hr
    unfold buildModel at hr
    cases hpb : paintBackground st.background canvasWidth
        (canvasHeight st.header (usersToRender st.users st.limit).length) initialCtx with
    | error e => rw [hpb] at hr; cases hr
    | ok ctx =>
      rw [hpb] at hr
      injection hr with hr
      subst hr
      exact renderRows_length st fetch 0 (usersToRender st.users st.limit)

/-- C3 counterexample: with the truthy negative limit `-1`, line 202 calls
`slice(0, -1)`, which drops the last participant instead of keeping the full
sequence, so a 2-participant list renders a single row. -/
theorem c3_negative_limit_cex :
    usersToRender [cexUserA, cexUserB] (some (-1)) = [cexUserA] ∧
    usersToRender [cexUserA, cexUserB] (some (-1)) ≠ [cexUserA, cexUserB] := by
  have h1 : usersToRender [cexUserA, cexUserB] (some (-1)) = [cexUserA] := rfl
  refine ⟨h1, ?_⟩
  rw [h1]
  intro h
  have := congrArg List.length h
  simp at this

/-- C4: the stop computation of line 246 is not guarded against a single-color
gradient: `0 / (1 - 1)` is the non-finite `NaN` (`jsStopOffset 0 1 = none`),
so for any one-color list the `addColorStop` contract is violated and the
background paint raises an `IndexSizeError` instead of degrading to a solid
fill. -/
theorem c4_single_color_gradient_raises :
    jsStopOffset 0 1 = none ∧
    (∀ c : String, addGradientStops [c] =
      Except.error "IndexSizeError: non-finite color stop offset") ∧
    paintBackground (BackgroundOptions.gradient ⟨"radial", ["#ff0000"]⟩) 900 140
        initialCtx =
      Except.error "IndexSizeError: non-finite color stop offset" :=
  ⟨rfl, fun _ => rfl, rfl⟩

/-- C5: the XP bar track is 200 wide when the rank column is visible and 350
when hidden; the drawn fill width is `barWidth * min(xp / neededXp, 1)`, drawn
exactly when `neededXp > 0` and the ratio is positive, skipped when
`neededXp ≤ 0`; the numeric text is always the raw, unclamped
`xp / neededXp` string. -/
theorem c5_xp_bar_geometry (st : BuilderState) (i : Nat) (p : LeaderboardData)
    (a : Bool) :
    ((renderRow st i p a).barWidth = if st.rankVisible then 200 else 350) ∧
    (0 < p.neededXp → 0 < p.xp →
      (renderRow st i p a).barFillWidth =
        some ((if st.rankVisible then (200 : Rat) else 350) * min (p.xp / p.neededXp) 1)) ∧
    (∀ w, (renderRow st i p a).barFillWidth = some w →
      0 < p.neededXp ∧
      w = (if st.rankVisible then (200 : Rat) else 350) * min (p.xp / p.neededXp) 1) ∧
    (¬ 0 < p.neededXp → (renderRow st i p a).barFillWidth = none) ∧
    ((renderRow st i p a).xpText = toString p.xp ++ " / " ++ toString p.neededXp) := by
  refine ⟨rfl, ?_, ?_, ?_, rfl⟩
  · intro hn hx
    show (if (if p.neededXp > 0 then p.xp / p.neededXp else 0) > 0 then _ else _) = _
    rw [if_pos hn, if_pos (div_pos hx hn)]
  · intro w hw
    by_cases hn : p.neededXp > 0
    · refine ⟨hn, ?_⟩
      by_cases hq : p.xp / p.neededXp > 0
      · have hw' : some ((if st.rankVisible then (200 : Rat) else 350) *
            min (p.xp / p.neededXp) 1) = some w := by
          rw [← hw]
          show _ = (if (if p.neededXp > 0 then p.xp / p.neededXp else 0) > 0
            then _ else _)
          rw [if_pos hn, if_pos hq]
        injection hw' with hw'
        exact hw'.symm
      · exfalso
        have : (renderRow st i p a).barFillWidth = none := by
          show (if (if p.neededXp > 0 then p.xp / p.neededXp else 0) > 0
            then _ else _) = _
          rw [if_pos hn, if_neg hq]
        rw [this] at hw
        cases hw
    · exfalso
      have : (renderRow st i p a).barFillWidth = none := by
        show (if (if p.neededXp > 0 then p.xp / p.neededXp else 0) > 0
          then _ else _) = _
        rw [if_neg hn]
        simp
      rw [this] at hw
      cases hw
  · intro hn
    show (if (if p.neededXp > 0 then p.xp / p.neededXp else 0) > 0 then _ else _) = _
    rw [if_neg hn]
    simp

/-- C6: a failed avatar fetch never makes `build` fail (its success is
independent of the fetch oracle), and in a successful build the canvas keeps
the dimensions computed for the full row count, every participant still gets
its row, the row of a failed fetch is drawn without an avatar image with the
error logged, and every row's position, nickname, level and XP texts are drawn
regardless of the fetch outcome. -/
theorem c6_avatar_failure_isolated (st : BuilderState) (fetch fetch2 : String → Bool) :
    ((buildModel st fetch).toOption.isSome = (buildModel st fetch2).toOption.isSome) ∧
    (∀ r, buildModel st fetch = Except.ok r →
      r.width = canvasWidth ∧
      r.height = canvasHeight st.header (usersToRender st.users st.limit).length ∧
      r.rows.length = (usersToRender st.users st.limit).length ∧
      (∀ j (hj : j < r.rows.length) (hj2 : j < (usersToRender st.users st.limit).length),
        (r.rows.get ⟨j, hj⟩).avatarDrawn =
            fetch ((usersToRender st.users st.limit).get ⟨j, hj2⟩).avatarUrl ∧
        (r.rows.get ⟨j, hj⟩).avatarErrorLogged =
            !(fetch ((usersToRender st.users st.limit).get ⟨j, hj2⟩).avatarUrl) ∧
        (r.rows.get ⟨j, hj⟩).nicknameText =
            ((usersToRender st.users st.limit).get ⟨j, hj2⟩).nickname ∧
        (r.rows.get ⟨j, hj⟩).levelText =
            "Level " ++ toString ((usersToRender st.users st.limit).get ⟨j, hj2⟩).level ∧
        (r.rows.get ⟨j, hj⟩).positionText = toString (j + 1) ∧
        (r.rows.get ⟨j, hj⟩).xpText =
            toString ((usersToRender st.users st.limit).get ⟨j, hj2⟩).xp ++ " / " ++
              toString ((usersToRender st.users st.limit).get ⟨j, hj2⟩).neededXp)) := by
  constructor
  · unfold buildModel
    cases paintBackground st.background canvasWidth
        (canvasHeight st.header (usersToRender st.users st.limit).length) initialCtx with
    | error e => rfl
    | ok ctx => rfl
  · intro r hr
    unfold buildModel at hr
    cases hpb : paintBackground st.background canvasWidth
        (canvasHeight st.header (usersToRender st.users st.limit).length) initialCtx with
    | error e => rw [hpb] at hr; cases hr
    | ok ctx =>
      rw [hpb] at hr
      injection hr with hr
      subst hr
      refine ⟨rfl, rfl, renderRows_length st fetch 0 _, ?_⟩
      intro j hj hj2
      have hget := renderRows_get st fetch 0 (usersToRender st.users st.limit) j hj hj2
      rw [Nat.zero_add] at hget
      rw [hget]
      exact ⟨rfl, rfl, rfl, rfl, rfl, rfl⟩

/-- Folding the spot fills over a context leaves `globalAlpha` unchanged and
appends one full-rectangle fill per spot, in order, at the current alpha. -/
theorem aurora_spots_foldl (spots : List AuroraSpot) (ctx : Ctx) (w h : Rat) :
    spots.foldl (fun c spot => c.fillRect (spotStyle spot) 0 0 w h) ctx =
      { globalAlpha := ctx.globalAlpha,
        ops := ctx.ops ++
          spots.map (fun s => ⟨spotStyle s, 0, 0, w, h, ctx.globalAlpha⟩) } := by
  induction spots generalizing ctx with
  | nil => simp
  | cons s rest ih =>
    simp only [List.foldl_cons, List.map_cons]
    rw [ih]
    simp [Ctx.fillRect]

/-- Painting an aurora background from a fresh context: the base color is
filled fully opaque, each spot in sequence order at alpha 0.4, and the final
`globalAlpha` is exactly 1. -/
theorem paintBackground_aurora (a : AuroraBackgroundOptions) (w h : Rat) :
    paintBackground (BackgroundOptions.aurora a) w h initialCtx =
      Except.ok
        { globalAlpha := 1,
          ops := ⟨FillStyle.color a.baseColor, 0, 0, w, h, 1⟩ ::
            a.spots.map (fun s => ⟨spotStyle s, 0, 0, w, h, 2 / 5⟩) } := by
  simp only [paintBackground]
  rw [aurora_spots_foldl]
  simp [Ctx.fillRect, Ctx.setGlobalAlpha, initialCtx]

/-- C7: for every aurora background (zero spots included) the base color fill
is issued fully opaque, the spots are composited in sequence order at global
alpha 0.4 (2/5), the context's global alpha is exactly 1 again afterwards, and
consequently a successful `build` over an aurora background draws its header
and rows at alpha 1. -/
theorem c7_aurora_alpha_restored (a : AuroraBackgroundOptions) (w h : Rat)
    (st : BuilderState) (fetch : String → Bool) :
    (paintBackground (BackgroundOptions.aurora a) w h initialCtx =
      Except.ok
        { globalAlpha := 1,
          ops := ⟨FillStyle.color a.baseColor, 0, 0, w, h, 1⟩ ::
            a.spots.map (fun s => ⟨spotStyle s, 0, 0, w, h, 2 / 5⟩) }) ∧
    (∀ a2 r, st.background = BackgroundOptions.aurora a2 →
      buildModel st fetch = Except.ok r → r.drawAlpha = 1) := by
  constructor
  · exact paintBackground_aurora a w h
  · intro a2 r hbg hr
    unfold buildModel at hr
    rw [hbg, paintBackground_aurora] at hr
    injection hr with hr
    subst hr
    rfl

/-- C8: a gradient kind string outside the seven recognized kinds takes the
`default` branch and gets the same geometry as the recognized
top-left→bottom-right diagonal: a linear gradient from (0,0) to
(width, height). -/
theorem c8_unknown_kind_diagonal (kind : String) (w h : Rat)
    (hk : kind ∉ recognizedGradientKinds) :
    gradientGeomFor kind w h = gradientGeomFor "linear-top-left-bottom-right" w h ∧
    gradientGeomFor kind w h = GradientGeom.linear 0 0 w h := by
  simp only [recognizedGradientKinds, List.mem_cons, List.mem_singleton, not_or] at hk
  obtain ⟨h1, h2, h3, h4, h5, h6, h7, _⟩ := hk
  constructor
  · unfold gradientGeomFor
    simp [h1, h2, h3, h4, h5, h6, h7]
  · unfold gradientGeomFor
    simp [h1, h2, h3, h4, h5, h6, h7]

/-- C8 witness: the unrecognized kind "spiral" falls back to the
(0,0)→(900,140) diagonal. -/
theorem c8_unknown_kind_diagonal_witness :
    "spiral" ∉ recognizedGradientKinds ∧
    (gradientGeomFor "spiral" 900 140 =
        gradientGeomFor "linear-top-left-bottom-right" 900 140 ∧
      gradientGeomFor "spiral" 900 140 = GradientGeom.linear 0 0 900 140) :=
  ⟨by decide, c8_unknown_kind_diagonal "spiral" 900 140 (by decide)⟩

/-- The sort used by `setRankTiers` orders thresholds descending. -/
theorem sortTiersDesc_sorted (l : List RankTier) :
    List.Sorted (fun a b => b.minXp ≤ a.minXp) (sortTiersDesc l) := by
  haveI : IsTotal RankTier (fun a b => b.minXp ≤ a.minXp) :=
    ⟨fun a b => le_total b.minXp a.minXp⟩
  haveI : IsTrans RankTier (fun a b => b.minXp ≤ a.minXp) :=
    ⟨fun _ _ _ h1 h2 => le_trans h2 h1⟩
  exact List.sorted_insertionSort _ l

/-- C9: `setRankTiers` stores the very array object it was handed (the stored
reference is the argument reference) and reorders that object in place into a
permutation of its previous contents sorted descending by `minXp`; no other
array is touched and no copy is made. -/
theorem c9_setRankTiers_in_place (heapAt : Nat → List RankTier) (argRef : Nat) :
    ((setRankTiersRef heapAt argRef).2.rankTiersRef = argRef) ∧
    ((setRankTiersRef heapAt argRef).1 argRef = sortTiersDesc (heapAt argRef)) ∧
    List.Sorted (fun a b => b.minXp ≤ a.minXp)
      ((setRankTiersRef heapAt argRef).1 argRef) ∧
    List.Perm ((setRankTiersRef heapAt argRef).1 argRef) (heapAt argRef) ∧
    (∀ j, j ≠ argRef → (setRankTiersRef heapAt argRef).1 j = heapAt j) := by
  refine ⟨rfl, by simp [setRankTiersRef], ?_, ?_, ?_⟩
  · show List.Sorted _ (if argRef = argRef then _ else _)
    rw [if_pos rfl]
    exact sortTiersDesc_sorted _
  · show List.Perm (if argRef = argRef then _ else _) _
    rw [if_pos rfl]
    exact List.perm_insertionSort _ _
  · intro j hj
    show (if j = argRef then _ else _) = _
    rw [if_neg hj]

/-- C10: the fill bar is drawn exactly when the computed ratio is strictly
positive: negative XP (negative ratio) or non-positive `neededXp` (ratio
treated as 0) skips the fill, and any drawn fill rectangle has strictly
positive width. -/
theorem c10_fill_iff_positive_ratio (st : BuilderState) (i : Nat)
    (p : LeaderboardData) (a : Bool) :
    ((renderRow st i p a).barFillWidth.isSome = true ↔
      0 < (if p.neededXp > 0 then p.xp / p.neededXp else 0)) ∧
    (p.xp < 0 → (renderRow st i p a).barFillWidth = none) ∧
    (p.neededXp ≤ 0 → (renderRow st i p a).barFillWidth = none) ∧
    (∀ w, (renderRow st i p a).barFillWidth = some w → 0 < w) := by
  have hfill : (renderRow st i p a).barFillWidth =
      (if (if p.neededXp > 0 then p.xp / p.neededXp else 0) > 0
        then some ((if st.rankVisible then (200 : Rat) else 350) *
          min (if p.neededXp > 0 then p.xp / p.neededXp else 0) 1)
        else none) := rfl
  refine ⟨?_, ?_, ?_, ?_⟩
  · rw [hfill]
    by_cases h : (if p.neededXp > 0 then p.xp / p.neededXp else 0) > 0
    · simp [h]
    · simp [h]
  · intro hx
    rw [hfill]
    by_cases hn : p.neededXp > 0
    · rw [if_pos hn]
      have : p.xp / p.neededXp < 0 := div_neg_of_neg_of_pos hx hn
      rw [if_neg (by exact not_lt_of_gt this)]
    · rw [if_neg hn, if_neg (lt_irrefl 0)]
  · intro hn
    rw [hfill, if_neg (not_lt_of_le hn), if_neg (lt_irrefl 0)]
  · intro w hw
    rw [hfill] at hw
    by_cases h : (if p.neededXp > 0 then p.xp / p.neededXp else 0) > 0
    · rw [if_pos h] at hw
      injection hw with hw
      subst hw
      apply mul_pos
      · by_cases hv : st.rankVisible <;> simp [hv]
      · exact lt_min h one_pos
    · rw [if_neg h] at hw
      cases hw

end CanvasLeaderboard
